import Mathlib

/-!
Verification of the gradient-reduction coordinator (ShardedDataParallel,
src/fairscale/nn/data_parallel/sharded_ddp.py) and of the pipeline
scheduler interface described by the specification, as a shallow
embedding in Lean.

Conventions of the embedding:
- tensors are summarized by rational values (one value per gradient or
  per bucket buffer); the fp16 cast is modeled as value-preserving,
  since no claim here concerns floating-point rounding;
- a single process group is modeled, so local ranks and global ranks
  coincide (OSS.get_global_rank is the identity);
- asynchronous completion of a communication handle is modeled by a
  boolean readiness flag attached to the handle when it is issued;
- calls to the transport layer (dist.reduce) are recorded in a ghost
  log issuedReduces, and blocking waits in a ghost counter
  blockingWaits, so that theorems can speak about what was issued and
  when the code blocked;
- the pipeline engine (fairscale.nn.pipe) is not under src, only its
  tests are; its behavior is modeled from the spec, and every such
  definition is marked accordingly.
-/

namespace FairscaleSpec

namespace SDDP

/-- An asynchronous point-to-point reduce call: the payload value handed
to the transport and the destination rank. -/
structure ReduceOp where
  payload : ℚ
  dst : ℕ
deriving DecidableEq

/-- The deferred completion action attached to a work handle.
The direct (non-bucketed) reduction path registers a cleanup closure;
the bucketed path registers no callback. -/
inductive Callback where
  | noop : Callback
  | directCleanup (index : ℕ) (dstRank : ℕ) : Callback
deriving DecidableEq

/-- A Workhandle pairs the asynchronous operation with its optional
callback; ready records whether the transport has already completed it
(what handle.is_completed() would report). -/
structure Workhandle where
  op : ReduceOp
  ready : Bool
  callback : Callback
deriving DecidableEq

/-- A reduction bucket as used by the backward hooks: the aggregate
buffer content, check-in counters, the sent flag and the destination
rank. The Bucket class itself lives in fairscale.optim.utils, outside
src; its fields and methods are modeled from the spec. -/
structure MBucket where
  buffer : ℚ
  paramsCheckedIn : ℕ
  maxParamsCheckedIn : ℕ
  sent : Bool
  destination : ℕ
deriving DecidableEq

/-- Modelled from the spec: Bucket.full of fairscale.optim.utils (not
under src) reports that the checked-in count reached the configured
maximum. -/
def MBucket.isFull (b : MBucket) : Bool :=
  b.paramsCheckedIn == b.maxParamsCheckedIn

/-- Modelled from the spec: Bucket.reset of fairscale.optim.utils (not
under src) clears the per-cycle check-in count and the sent flag. -/
def MBucket.reset (b : MBucket) : MBucket :=
  { b with paramsCheckedIn := 0, sent := false }

/-- Default bucket used for out-of-range lookups. -/
def MBucket.default0 : MBucket :=
  { buffer := 0, paramsCheckedIn := 0, maxParamsCheckedIn := 0, sent := false, destination := 0 }

/-- The per-cycle state of ShardedDataParallel that the backward hooks,
the flush callback and the counter reset read and write.  Lists are
indexed by the position of a parameter in the trainable-parameter list;
buckets are indexed by destination rank (single device). -/
structure DDPState where
  worldSize : ℕ
  rank : ℕ
  reduceFP16 : Bool
  useBuckets : Bool
  training : Bool
  shouldAccumulateGrads : Bool
  accumulateGradsFlipped : Bool
  gradToBeReduced : List Bool
  grads : List (Option ℚ)
  gradBuffer : List (Option ℚ)
  reducedGrads : ℕ
  reducedGradsMax : ℕ
  workHandles : List Workhandle
  bucketFlushCallbackSet : Bool
  buckets : List MBucket
  issuedReduces : List ReduceOp
  blockingWaits : ℕ
deriving DecidableEq

/-- self.world_size_scaling, that is 1.0 divided by the world size. -/
def DDPState.scaling (s : DDPState) : ℚ := 1 / (s.worldSize : ℚ)

/-- Run the completion callback of a popped work handle
(the cleanup closure of the direct reduction path frees the local
gradient on non-owner ranks and restores it from the send buffer on the
owner rank when fp16 reduction is active). -/
def applyCallback (s : DDPState) : Callback → DDPState
  | .noop => s
  | .directCleanup index dstRank =>
    let s1 :=
      if dstRank ≠ s.rank then { s with grads := s.grads.set index none }
      else if s.reduceFP16 then { s with grads := s.grads.set index (s.gradBuffer.getD index none) }
      else s
    { s1 with gradBuffer := s1.gradBuffer.set index none }

/-- consume_work_handles: blocking drain of the whole FIFO queue; each
wait is counted in the ghost counter, then the callback runs. -/
def consume_work_handles (s : DDPState) : DDPState :=
  s.workHandles.foldl
    (fun acc wh => applyCallback { acc with blockingWaits := acc.blockingWaits + 1 } wh.callback)
    { s with workHandles := [] }

/-- try_consume_work_handle: non-blocking drain, popping completed
handles from the front only. -/
def try_consume_work_handle (s : DDPState) : DDPState :=
  (s.workHandles.takeWhile (fun wh => wh.ready)).foldl
    (fun acc wh => applyCallback acc wh.callback)
    { s with workHandles := s.workHandles.dropWhile (fun wh => wh.ready) }

/-- Shared tail of both backward hooks: opportunistically drain the
queue, then, when every expected reduce of the cycle has been issued,
drain blockingly. -/
def hookEpilogue (s : DDPState) : DDPState :=
  let s1 := try_consume_work_handle s
  if s1.reducedGrads = s1.reducedGradsMax then consume_work_handles s1 else s1

/-- The direct (non-bucketed) backward hook produced by get_reduce_fn
for parameter index with shard owner dstRank.  ready models whether the
transport completes the issued reduce immediately.  Mirrors the source:
skip when gradient accumulation is on or the gradient was already
handled; otherwise queue the end-of-pass flush callback once, mark the
gradient handled, scale it by one over world size, stash it in the send
buffer, issue the asynchronous reduce with a cleanup callback, and run
the drain epilogue. -/
def reduceDirect (index dstRank : ℕ) (ready : Bool) (s : DDPState) : Except String DDPState :=
  if !s.shouldAccumulateGrads && s.gradToBeReduced.getD index false then
    match s.grads.getD index none with
    | none => .error ("Reducing gradients during backward pass, cannot be None")
    | some g =>
      let s1 := { s with bucketFlushCallbackSet := true }
      let s2 := { s1 with gradToBeReduced := s1.gradToBeReduced.set index false }
      let g2 := g * s.scaling
      let s3 := { s2 with grads := s2.grads.set index (some g2),
                          gradBuffer := s2.gradBuffer.set index (some g2) }
      let op : ReduceOp := { payload := g2, dst := dstRank }
      let s4 := { s3 with
        workHandles := s3.workHandles ++ [{ op := op, ready := ready, callback := .directCleanup index dstRank }],
        issuedReduces := s3.issuedReduces ++ [op],
        reducedGrads := s3.reducedGrads + 1 }
      .ok (hookEpilogue s4)
  else .ok s

/-- The bucketed backward hook produced by get_reduce_fn: mark the
gradient handled, check the parameter into its destination bucket, and
when the bucket is full scale the whole buffer by one over world size,
mark it sent, and issue one asynchronous reduce for it; then the drain
epilogue. -/
def reduceBucketed (index dstRank : ℕ) (ready : Bool) (s : DDPState) : Except String DDPState :=
  if !s.shouldAccumulateGrads && s.gradToBeReduced.getD index false then
    match s.grads.getD index none with
    | none => .error ("Reducing gradients during backward pass, cannot be None")
    | some _ =>
      let s1 := { s with bucketFlushCallbackSet := true }
      let s2 := { s1 with gradToBeReduced := s1.gradToBeReduced.set index false }
      let b := s2.buckets.getD dstRank MBucket.default0
      let b1 := { b with paramsCheckedIn := b.paramsCheckedIn + 1 }
      if b1.isFull then
        let b2 := { b1 with buffer := b1.buffer * s.scaling, sent := true }
        let op : ReduceOp := { payload := b2.buffer, dst := b2.destination }
        let s3 := { s2 with
          buckets := s2.buckets.set dstRank b2,
          workHandles := s2.workHandles ++ [{ op := op, ready := ready, callback := .noop }],
          issuedReduces := s2.issuedReduces ++ [op],
          reducedGrads := s2.reducedGrads + 1 }
        .ok (hookEpilogue s3)
      else
        .ok (hookEpilogue { s2 with buckets := s2.buckets.set dstRank b1 })
  else .ok s

/-- flush_buckets, the deferred end-of-pass callback: scale and reduce
every bucket not yet sent, mark them sent, and wait on the last issued
handle (one blocking wait when anything was flushed). -/
def flush_buckets (s : DDPState) : DDPState :=
  let newOps := (s.buckets.filter (fun b => !b.sent)).map
    (fun b => { payload := b.buffer * s.scaling, dst := b.destination : ReduceOp })
  { s with
    buckets := s.buckets.map
      (fun b => if b.sent then b else { b with buffer := b.buffer * s.scaling, sent := true }),
    issuedReduces := s.issuedReduces ++ newOps,
    blockingWaits := s.blockingWaits + (if s.buckets.any (fun b => !b.sent) then 1 else 0) }

/-- The per-bucket condition of the assertion inside clear_counters. -/
def clearCountersCheck (s : DDPState) (b : MBucket) : Bool :=
  s.accumulateGradsFlipped || !s.training || s.shouldAccumulateGrads || b.sent

/-- clear_counters, run at the start of every forward pass: re-arm all
per-parameter flags and the reduce counter; with buckets enabled,
assert every bucket was sent (under the relaxations present in the
source) and reset the buckets; finally lower the accumulate-flipped
flag unless a no-sync scope is still active.  An assertion failure is
a fatal error.  The assertion is checked here before the flag reset;
this is observably equivalent to the source, which interleaves them,
because the assertion reads only fields the reset does not touch and
its failure aborts the program. -/
def clear_counters (s : DDPState) : Except String DDPState :=
  if s.useBuckets && !(s.buckets.all (clearCountersCheck s)) then
    .error ("A bucket failed to be sent, cannot continue as results would be wrong")
  else
    let s1 := { s with gradToBeReduced := s.gradToBeReduced.map (fun _ => true), reducedGrads := 0 }
    let s2 :=
      if s1.useBuckets then
        { s1 with buckets := s1.buckets.map MBucket.reset, bucketFlushCallbackSet := false }
      else s1
    if !s2.shouldAccumulateGrads then .ok { s2 with accumulateGradsFlipped := false }
    else .ok s2

/-- reduce(), the manual reduction entry point.  The source first
checks that some gradient is pending; the following line builds a lazy
map object over the registered hooks which is never consumed, so in
Python no hook body runs there and the line has no effect; afterwards
the pending-work queue is drained blockingly. -/
def reduce (s : DDPState) : Except String DDPState :=
  if s.gradToBeReduced.foldl (fun x y => x || y) false then
    .ok (consume_work_handles s)
  else .error ("No grads waiting to be reduced, maybe that this was called twice or there was no BW pass")

/-- The constructor arguments of ShardedDataParallel that matter to the
configuration fields set in init. -/
structure InitArgs where
  broadcastBuffers : Bool
  syncModelsAtStartup : Bool
  reduceBufferSize : ℕ
  autoRefreshTrainable : Bool
  reduceFP16 : Bool
  modelSize : ℕ
deriving DecidableEq

/-- The configuration fields that init derives from its arguments. -/
structure InitConfig where
  enableBroadcastBuffers : Bool
  autoRefreshTrainable : Bool
  reduceFP16 : Bool
  shouldAccumulateGrads : Bool
  accumulateGradsFlipped : Bool
  bufferMaxSize : ℕ
  useBuckets : Bool
deriving DecidableEq

/-- The configuration computation of ShardedDataParallel.init: fp16
reduction is silently turned off when a positive reduce buffer size is
also requested (the source logs a warning there); the bucket buffer
size is capped by the model size and bucketing is active only when the
resulting size is positive. -/
def initConfig (a : InitArgs) : InitConfig :=
  let fp16 := if decide (0 < a.reduceBufferSize) && a.reduceFP16 then false else a.reduceFP16
  { enableBroadcastBuffers := a.broadcastBuffers,
    autoRefreshTrainable := a.autoRefreshTrainable,
    reduceFP16 := fp16,
    shouldAccumulateGrads := false,
    accumulateGradsFlipped := false,
    bufferMaxSize := min a.reduceBufferSize a.modelSize,
    useBuckets := decide (0 < min a.reduceBufferSize a.modelSize) }

/-- A parameter as seen by refresh_trainable and the bucket layout:
its element count, its trainability flag, its device and the rank that
owns its shard (the shard assignment is an external collaborator that
supplies a fixed mapping from parameter to owning rank, so it is
carried as a field). -/
structure PParam where
  numel : ℕ
  requiresGrad : Bool
  device : ℕ
  rank : ℕ
deriving DecidableEq

/-- A bucket as laid out by setup_bucket_strategy: the buffer contents,
the fill offset, the expected check-in count, the sent flag and the
destination rank. -/
structure LBucket where
  buffer : List ℚ
  fill : ℕ
  maxParamsCheckedIn : ℕ
  sent : Bool
  destination : ℕ
deriving DecidableEq

/-- A freshly allocated bucket: a zero-initialized buffer of the
configured capacity, nothing checked in. -/
def newBucket (cap : ℕ) : LBucket :=
  { buffer := List.replicate cap 0, fill := 0, maxParamsCheckedIn := 0, sent := false, destination := 0 }

/-- The bucket table: an insertion-ordered association list from device
to the per-rank bucket list, mirroring the Python dict self.buckets. -/
abbrev DeviceBuckets := List (ℕ × List LBucket)

/-- Dictionary lookup in the bucket table. -/
def assocGet (bs : DeviceBuckets) (d : ℕ) : Option (List LBucket) :=
  (bs.find? (fun q => q.fst == d)).map (fun q => q.snd)

/-- Lazy allocation: on the first parameter of a device, allocate one
fresh bucket per rank of the process group for that device. -/
def ensureDevice (w cap : ℕ) (bs : DeviceBuckets) (d : ℕ) : DeviceBuckets :=
  if (assocGet bs d).isSome then bs else bs ++ [(d, List.replicate w (newBucket cap))]

/-- Read the bucket of a (device, rank) pair. -/
def getBucketAt (cap : ℕ) (bs : DeviceBuckets) (d r : ℕ) : LBucket :=
  ((assocGet bs d).getD []).getD r (newBucket cap)

/-- Write back the bucket of a (device, rank) pair. -/
def putBucket (bs : DeviceBuckets) (d r : ℕ) (b : LBucket) : DeviceBuckets :=
  bs.map (fun q => if q.fst == d then (q.fst, q.snd.set r b) else q)

/-- The room criterion of the source: the parameter joins the bucket
only when the fill offset plus its element count stays strictly below
the configured capacity. -/
def paramFits (cap : ℕ) (b : LBucket) (p : PParam) : Bool :=
  decide (b.fill + p.numel < cap)

/-- Whether the walked parameter fits its destination bucket in the
current table (the criterion of the source, with the destination-rank
write folded out since it does not change the fill). -/
def stepFits (w cap : ℕ) (bs : DeviceBuckets) (p : PParam) : Bool :=
  paramFits cap (getBucketAt cap (ensureDevice w cap bs p.device) p.device p.rank) p

/-- The effect of one walked parameter on the bucket table: allocate
the device entry lazily, record the destination rank, and on a fit
advance the fill offset and the expected check-in count. -/
def bucketsCore (w cap : ℕ) (bs : DeviceBuckets) (p : PParam) : DeviceBuckets :=
  let bs1 := ensureDevice w cap bs p.device
  let b := { getBucketAt cap bs1 p.device p.rank with destination := p.rank }
  let b1 := if stepFits w cap bs p
            then { b with fill := b.fill + p.numel, maxParamsCheckedIn := b.maxParamsCheckedIn + 1 }
            else b
  putBucket bs1 p.device p.rank b1

/-- Ghost record of a gradient made into a view of a bucket buffer:
which (device, rank) buffer, at which offset, and how many elements. -/
structure ViewRec where
  device : ℕ
  rank : ℕ
  offset : ℕ
  len : ℕ
deriving DecidableEq

/-- The mutable state of the layout pass: the bucket table, the
per-parameter bucketed flags (the source appends to this list and never
clears it), the ghost view log, and the expected number of reduce
calls. -/
structure LayoutState where
  buckets : DeviceBuckets
  shouldBucketGrad : List Bool
  views : List ViewRec
  reducedGradsMax : ℕ
deriving DecidableEq

/-- One iteration of the layout walk over a trainable parameter. -/
def bucketStep (w cap : ℕ) (st : LayoutState) (p : PParam) : LayoutState :=
  if stepFits w cap st.buckets p then
    { buckets := bucketsCore w cap st.buckets p,
      shouldBucketGrad := st.shouldBucketGrad ++ [true],
      views := st.views ++
        [{ device := p.device, rank := p.rank,
           offset := (getBucketAt cap (ensureDevice w cap st.buckets p.device) p.device p.rank).fill,
           len := p.numel }],
      reducedGradsMax := st.reducedGradsMax - 1 }
  else
    { st with buckets := bucketsCore w cap st.buckets p,
              shouldBucketGrad := st.shouldBucketGrad ++ [false] }

/-- All buckets of the table in device insertion order. -/
def bucketListOf (bs : DeviceBuckets) : List LBucket :=
  (bs.map (fun q => q.snd)).flatten

/-- The end-of-walk trimming: resize each buffer down to its fill and
mark the bucket sent (so that the very first counter reset passes). -/
def trimBucket (b : LBucket) : LBucket :=
  { b with buffer := b.buffer.take b.fill, sent := true }

/-- setup_bucket_strategy: start from one expected reduce call per
trainable parameter; without bucketing stop there.  With bucketing,
reset the bucket table, walk the (already size-sorted) trainable
parameters through bucketStep, then trim every buffer to its exact
content size and count one reduce call per non-empty bucket. -/
def setup_bucket_strategy (w cap : ℕ) (useBuckets : Bool) (params : List PParam) (st : LayoutState) :
    LayoutState :=
  let st0 := { st with reducedGradsMax := params.length }
  if !useBuckets then st0
  else
    let st1 := params.foldl (bucketStep w cap) { st0 with buckets := [] }
    { st1 with
      buckets := st1.buckets.map (fun q => (q.fst, q.snd.map trimBucket)),
      reducedGradsMax := st1.reducedGradsMax +
        ((bucketListOf st1.buckets).filter (fun b => decide (0 < b.maxParamsCheckedIn))).length }

/-- The invariant of the layout walk: every allocated device entry has
one bucket per rank, and every bucket keeps its fill offset within the
configured capacity over a still-untouched zero buffer of exactly that
capacity. -/
def walkInv (w cap : ℕ) (bs : DeviceBuckets) : Prop :=
  ∀ q ∈ bs, q.snd.length = w ∧
    ∀ b ∈ q.snd, b.fill ≤ cap ∧ b.buffer = List.replicate cap (0 : ℚ)

/-- The devices with allocated buckets, in insertion order. -/
def deviceKeys (bs : DeviceBuckets) : List ℕ :=
  bs.map (fun q => q.fst)

/-- Stable insertion of a parameter into a by-size sorted list, after
all parameters of smaller or equal element count (Python list.sort is
stable). -/
def insertParam (p : PParam) : List PParam → List PParam
  | [] => [p]
  | q :: qs => if q.numel ≤ p.numel then q :: insertParam p qs else p :: q :: qs

/-- The by-ascending-element-count sort applied by refresh_trainable. -/
def sortByNumel (ps : List PParam) : List PParam :=
  ps.foldl (fun acc p => insertParam p acc) []

/-- The state refresh_trainable works on: the configuration, the full
parameter list, the pending flags, and the derived trainable list and
layout.  The shard assignment recomputed from the sharded optimizers is
the rank field of each trainable parameter. -/
structure RState where
  worldSize : ℕ
  bufferMaxSize : ℕ
  useBuckets : Bool
  allParams : List PParam
  gradToBeReduced : List Bool
  trainableParams : List PParam
  layout : LayoutState
deriving DecidableEq

/-- refresh_trainable: assert that no gradient is waiting to be
reduced, rebuild the trainable-parameter list sorted by ascending
element count, re-arm every pending flag, and rebuild the bucket
layout (setup_backward_hooks only re-registers the hooks and is not
modeled). -/
def refresh_trainable (s : RState) : Except String RState :=
  if s.gradToBeReduced.foldl (fun x y => x || y) false then
    .error ("Grads waiting to be reduced")
  else
    let tps := sortByNumel (s.allParams.filter (fun p => p.requiresGrad))
    .ok { s with
      trainableParams := tps,
      gradToBeReduced := tps.map (fun _ => true),
      layout := setup_bucket_strategy s.worldSize s.bufferMaxSize s.useBuckets tps s.layout }

/-- A concrete two-parameter, two-rank state used to exercise the
backward hooks: both gradients computed and pending, one bucket per
rank, the rank-zero bucket expecting two check-ins. -/
def c1State : DDPState :=
  { worldSize := 2, rank := 0, reduceFP16 := false, useBuckets := true,
    training := true, shouldAccumulateGrads := false, accumulateGradsFlipped := false,
    gradToBeReduced := [true, true], grads := [some 4, some 6], gradBuffer := [none, none],
    reducedGrads := 0, reducedGradsMax := 3, workHandles := [],
    bucketFlushCallbackSet := false,
    buckets := [{ buffer := 5, paramsCheckedIn := 0, maxParamsCheckedIn := 2, sent := false, destination := 0 },
                { buffer := 0, paramsCheckedIn := 0, maxParamsCheckedIn := 0, sent := true, destination := 1 }],
    issuedReduces := [], blockingWaits := 0 }

/-- A concrete state in eval mode with an unsent bucket and no no-sync
scope active or recently exited. -/
def c2State : DDPState :=
  { worldSize := 2, rank := 0, reduceFP16 := false, useBuckets := true,
    training := false, shouldAccumulateGrads := false, accumulateGradsFlipped := false,
    gradToBeReduced := [true], grads := [some 1], gradBuffer := [none],
    reducedGrads := 0, reducedGradsMax := 1, workHandles := [],
    bucketFlushCallbackSet := false,
    buckets := [{ buffer := 3, paramsCheckedIn := 0, maxParamsCheckedIn := 1, sent := false, destination := 0 }],
    issuedReduces := [], blockingWaits := 0 }

/-- A concrete state with one gradient computed and pending reduction
and an empty pending-work queue. -/
def c3StatePending : DDPState :=
  { worldSize := 2, rank := 0, reduceFP16 := false, useBuckets := false,
    training := true, shouldAccumulateGrads := false, accumulateGradsFlipped := false,
    gradToBeReduced := [true], grads := [some 3], gradBuffer := [none],
    reducedGrads := 0, reducedGradsMax := 1, workHandles := [],
    bucketFlushCallbackSet := false, buckets := [],
    issuedReduces := [], blockingWaits := 0 }

/-- The same state with nothing pending. -/
def c3StateIdle : DDPState :=
  { c3StatePending with gradToBeReduced := [false] }

/-- Concrete constructor arguments requesting both bucketing and fp16
reduction. -/
def c10Args : InitArgs :=
  { broadcastBuffers := true, syncModelsAtStartup := true, reduceBufferSize := 8,
    autoRefreshTrainable := true, reduceFP16 := true, modelSize := 4 }

/-- A concrete refresh state: one trainable parameter, no pending
gradient, bucketing off. -/
def c4State : RState :=
  { worldSize := 1, bufferMaxSize := 0, useBuckets := false,
    allParams := [{ numel := 1, requiresGrad := true, device := 0, rank := 0 }],
    gradToBeReduced := [], trainableParams := [],
    layout := { buckets := [], shouldBucketGrad := [], views := [], reducedGradsMax := 0 } }

/-- The state produced by one successful refresh_trainable on c4State. -/
def c4After : RState :=
  { c4State with
    trainableParams := [{ numel := 1, requiresGrad := true, device := 0, rank := 0 }],
    gradToBeReduced := [true],
    layout := { buckets := [], shouldBucketGrad := [], views := [], reducedGradsMax := 1 } }

end SDDP

namespace Pipe

/-- Modelled from the spec: the error taxonomy of the pipeline build
path (the pipeline implementation is not under src, only its tests
are). -/
inductive BuildError where
  | valueError (msg : String) : BuildError
  | indexError (msg : String) : BuildError
  | typeError (msg : String) : BuildError
deriving DecidableEq

/-- Modelled from the spec: the result of a successful pipeline build,
keeping the validated balance, the devices actually consumed, the chunk
count and the checkpoint policy. -/
structure BuiltPipe where
  balance : List ℕ
  devices : List ℕ
  chunks : ℕ
  checkpoint : String
deriving DecidableEq

/-- Modelled from the spec: the build-time validation of
Pipe(module, balance, devices, chunks, checkpoint).  A balance with a
non-positive entry or whose sum differs from the number of child units
fails with ValueError; fewer devices than stages fails with IndexError
and extra devices are silently discarded; a chunk count below one fails
with ValueError; a checkpoint policy outside the three known names
fails with ValueError. -/
def buildPipe (nUnits : ℕ) (balance : List ℤ) (devices : List ℕ) (chunks : ℤ)
    (checkpoint : String) : Except BuildError BuiltPipe :=
  if balance.any (fun b => decide (b ≤ 0)) then
    .error (.valueError ("all balance numbers must be positive integer, see fairscale.nn.pipe.balance"))
  else if balance.sum ≠ (nUnits : ℤ) then
    .error (.valueError ("module and sum of balance have different length, see fairscale.nn.pipe.balance"))
  else if devices.length < balance.length then
    .error (.indexError ("too few devices to hold given partitions"))
  else if chunks < 1 then
    .error (.valueError ("number of chunks must be positive integer"))
  else if checkpoint ≠ "always" ∧ checkpoint ≠ "except_last" ∧ checkpoint ≠ "never" then
    .error (.valueError ("checkpoint is not one of always, except_last, or never"))
  else
    .ok { balance := balance.map Int.toNat,
          devices := devices.take balance.length,
          chunks := chunks.toNat,
          checkpoint := checkpoint }

/-- Modelled from the spec: a value crossing the pipeline boundary is
either a tensor (summarized by an integer) or a non-tensor Python
value. -/
inductive PipeValue where
  | tensor (v : ℤ) : PipeValue
  | other (tag : String) : PipeValue
deriving DecidableEq

/-- Modelled from the spec: the input of a pipeline call, a bare value
or a tuple of values. -/
inductive PipeInput where
  | single (x : PipeValue) : PipeInput
  | tuple (xs : List PipeValue) : PipeInput
deriving DecidableEq

/-- Whether a pipeline input consists only of tensors. -/
def tensorOnly : PipeInput → Bool
  | .single (.tensor _) => true
  | .single (.other _) => false
  | .tuple xs => xs.all (fun x => match x with | .tensor _ => true | .other _ => false)

/-- Modelled from the spec: the forward pass of a pipeline built over
an empty model (balance empty, no devices).  The input is scattered
into micro-batches and gathered back with no stage in between, so any
all-tensor input is returned unchanged; a non-tensor input fails with a
type error at the scatter. -/
def emptyPipeForward (inp : PipeInput) : Except BuildError PipeInput :=
  if tensorOnly inp then .ok inp
  else .error (.typeError ("expected Tensor to scatter"))

/-- All (chunk, stage) tasks of a pipeline run, chunk-major. -/
def taskList (nStages chunks : ℕ) : List (ℕ × ℕ) :=
  (List.range chunks).flatMap (fun c => (List.range nStages).map (fun st => (c, st)))

/-- The latency of a stage, read from the per-stage latency list. -/
def latOf (lats : List ℕ) (st : ℕ) : ℕ := lats.getD st 0

/-- The tasks scheduled at one clock tick: task (chunk, stage) runs at
tick chunk + stage. -/
def tickTasks (nStages chunks t : ℕ) : List (ℕ × ℕ) :=
  (taskList nStages chunks).filter (fun p => p.fst + p.snd == t)

/-- Modelled from the spec: the lockstep clock schedule.  All tasks of
one tick run concurrently and the clock advances when the slowest of
them finishes, so a tick lasts as long as its slowest stage. -/
def tickDur (nStages chunks : ℕ) (lats : List ℕ) (t : ℕ) : ℕ :=
  (tickTasks nStages chunks t).foldl (fun m p => max m (latOf lats p.snd)) 0

/-- The instant a tick begins: the total duration of all earlier ticks. -/
def tickStart (nStages chunks : ℕ) (lats : List ℕ) (t : ℕ) : ℕ :=
  (List.range t).foldl (fun acc u => acc + tickDur nStages chunks lats u) 0

/-- The instant task (chunk, stage) starts: the start of its tick. -/
def startAt (nStages chunks : ℕ) (lats : List ℕ) (p : ℕ × ℕ) : ℕ :=
  tickStart nStages chunks lats (p.fst + p.snd)

/-- The instant task (chunk, stage) completes: its tick start plus the
latency of its stage. -/
def completeAt (nStages chunks : ℕ) (lats : List ℕ) (p : ℕ × ℕ) : ℕ :=
  tickStart nStages chunks lats (p.fst + p.snd) + latOf lats p.snd

/-- Insertion into a list sorted by a key, after all entries with a
smaller or equal key (stable). -/
def insertByKey (key : ℕ × ℕ → ℕ) (p : ℕ × ℕ) : List (ℕ × ℕ) → List (ℕ × ℕ)
  | [] => [p]
  | q :: qs => if key q ≤ key p then q :: insertByKey key p qs else p :: q :: qs

/-- Sort a task list by a key, keeping the original order of ties. -/
def sortByKey (key : ℕ × ℕ → ℕ) (l : List (ℕ × ℕ)) : List (ℕ × ℕ) :=
  l.foldl (fun acc p => insertByKey key p acc) []

/-- Modelled from the spec: the observable completion order of all
tasks under the lockstep schedule, as (micro-batch, stage) pairs sorted
by completion instant. -/
def completionOrder (nStages chunks : ℕ) (lats : List ℕ) : List (ℕ × ℕ) :=
  sortByKey (completeAt nStages chunks lats) (taskList nStages chunks)

/-- Modelled from the spec: what a stage does to a micro-batch, for the
cancellation model: either compute and pass on, or raise. -/
inductive StageKind where
  | pass : StageKind
  | raiseErr (e : String) : StageKind
deriving DecidableEq

/-- The exception a stage raises, if any. -/
def stageRaises (beh : List StageKind) (st : ℕ) : Option String :=
  match beh.getD st .pass with
  | .raiseErr e => some e
  | .pass => none

/-- Modelled from the spec: the first clock tick at which some
scheduled task raises.  Later ticks are never dispatched. -/
def faultTick (beh : List StageKind) (nStages chunks : ℕ) : Option ℕ :=
  ((List.range (nStages + chunks)).find?
    (fun t => (tickTasks nStages chunks t).any (fun p => (stageRaises beh p.snd).isSome)))

/-- Modelled from the spec: the tasks that actually execute.  A task
already dispatched when the fault occurs (same tick) finishes; tasks of
strictly later ticks are skipped by the cooperative cancellation. -/
def executedTasks (beh : List StageKind) (nStages chunks : ℕ) : List (ℕ × ℕ) :=
  match faultTick beh nStages chunks with
  | none => taskList nStages chunks
  | some ft => (taskList nStages chunks).filter (fun p => decide (p.fst + p.snd ≤ ft))

/-- Modelled from the spec: the outcome surfaced to the pipeline
caller: the originally raised exception of the first faulting task, or
success. -/
def pipeResult (beh : List StageKind) (nStages chunks : ℕ) : Except String Unit :=
  match faultTick beh nStages chunks with
  | none => .ok ()
  | some ft =>
    match (tickTasks nStages chunks ft).find? (fun p => (stageRaises beh p.snd).isSome) with
    | some p =>
      match stageRaises beh p.snd with
      | some e => .error e
      | none => .ok ()
    | none => .ok ()

/-- How many micro-batches a given stage executes before the pipeline
aborts. -/
def execCount (beh : List StageKind) (nStages chunks st : ℕ) : ℕ :=
  (executedTasks beh nStages chunks).countP (fun p => p.snd == st)

/-- The four-stage chain of the early-stop scenario: two pass-through
stages, one instrumented pass-through stage, and a stage that always
raises. -/
def c7Beh : List StageKind :=
  [.pass, .pass, .pass, .raiseErr "ExpectedException"]

end Pipe

namespace SDDP

theorem applyCallback_proj (s : DDPState) (c : Callback) :
    (applyCallback s c).gradToBeReduced = s.gradToBeReduced ∧
    (applyCallback s c).issuedReduces = s.issuedReduces ∧
    (applyCallback s c).buckets = s.buckets := by
  cases c with
  | noop => exact ⟨rfl, rfl, rfl⟩
  | directCleanup i d =>
    simp only [applyCallback]
    split_ifs <;> exact ⟨rfl, rfl, rfl⟩

theorem consumeAux_proj (l : List Workhandle) (s : DDPState) :
    ((l.foldl (fun acc wh =>
        applyCallback { acc with blockingWaits := acc.blockingWaits + 1 } wh.callback) s).gradToBeReduced
        = s.gradToBeReduced) ∧
    ((l.foldl (fun acc wh =>
        applyCallback { acc with blockingWaits := acc.blockingWaits + 1 } wh.callback) s).issuedReduces
        = s.issuedReduces) ∧
    ((l.foldl (fun acc wh =>
        applyCallback { acc with blockingWaits := acc.blockingWaits + 1 } wh.callback) s).buckets
        = s.buckets) := by
  induction l generalizing s with
  | nil => exact ⟨rfl, rfl, rfl⟩
  | cons wh t ih =>
    simp only [List.foldl_cons]
    exact ⟨((ih _).1).trans (applyCallback_proj _ _).1,
           ((ih _).2.1).trans (applyCallback_proj _ _).2.1,
           ((ih _).2.2).trans (applyCallback_proj _ _).2.2⟩

theorem tryAux_proj (l : List Workhandle) (s : DDPState) :
    ((l.foldl (fun acc wh => applyCallback acc wh.callback) s).gradToBeReduced
        = s.gradToBeReduced) ∧
    ((l.foldl (fun acc wh => applyCallback acc wh.callback) s).issuedReduces
        = s.issuedReduces) ∧
    ((l.foldl (fun acc wh => applyCallback acc wh.callback) s).buckets
        = s.buckets) := by
  induction l generalizing s with
  | nil => exact ⟨rfl, rfl, rfl⟩
  | cons wh t ih =>
    simp only [List.foldl_cons]
    exact ⟨((ih _).1).trans (applyCallback_proj _ _).1,
           ((ih _).2.1).trans (applyCallback_proj _ _).2.1,
           ((ih _).2.2).trans (applyCallback_proj _ _).2.2⟩

theorem consume_proj (s : DDPState) :
    (consume_work_handles s).gradToBeReduced = s.gradToBeReduced ∧
    (consume_work_handles s).issuedReduces = s.issuedReduces ∧
    (consume_work_handles s).buckets = s.buckets := by
  unfold consume_work_handles
  exact ⟨(consumeAux_proj _ _).1, (consumeAux_proj _ _).2.1, (consumeAux_proj _ _).2.2⟩

theorem try_proj (s : DDPState) :
    (try_consume_work_handle s).gradToBeReduced = s.gradToBeReduced ∧
    (try_consume_work_handle s).issuedReduces = s.issuedReduces ∧
    (try_consume_work_handle s).buckets = s.buckets := by
  unfold try_consume_work_handle
  exact ⟨(tryAux_proj _ _).1, (tryAux_proj _ _).2.1, (tryAux_proj _ _).2.2⟩

theorem hookEpilogue_proj (s : DDPState) :
    (hookEpilogue s).gradToBeReduced = s.gradToBeReduced ∧
    (hookEpilogue s).issuedReduces = s.issuedReduces ∧
    (hookEpilogue s).buckets = s.buckets := by
  simp only [hookEpilogue]
  split_ifs
  · exact ⟨(consume_proj _).1.trans (try_proj _).1,
           (consume_proj _).2.1.trans (try_proj _).2.1,
           (consume_proj _).2.2.trans (try_proj _).2.2⟩
  · exact ⟨(try_proj _).1, (try_proj _).2.1, (try_proj _).2.2⟩

theorem getD_set_false (l : List Bool) (i : ℕ) :
    (l.set i false).getD i false = false := by
  induction l generalizing i with
  | nil => rfl
  | cons a t ih =>
    cases i with
    | zero => rfl
    | succ n => simpa using ih n

/-- Claim C1: for every trainable parameter whose gradient is computed,
the backward hook (in both its direct and its bucketed form) is a no-op
when gradient synchronization is suspended or when the parameter was
already handled this cycle; otherwise it marks the parameter handled
(so a repeated firing is a no-op, giving exactly one reduction per
cycle), and the asynchronous reduce it issues carries the gradient
scaled by one over the world size: directly for the direct path, and at
the bucket level for the bucketed path, where the full bucket buffer is
scaled by one over the world size just before its single reduce is
issued. -/
theorem grad_hook_reduces_once (s : DDPState) (index dstRank : ℕ) (ready : Bool) (g : ℚ) :
    (s.shouldAccumulateGrads = true →
       reduceDirect index dstRank ready s = .ok s ∧ reduceBucketed index dstRank ready s = .ok s)
  ∧ (s.gradToBeReduced.getD index false = false →
       reduceDirect index dstRank ready s = .ok s ∧ reduceBucketed index dstRank ready s = .ok s)
  ∧ (s.shouldAccumulateGrads = false → s.gradToBeReduced.getD index false = true →
     s.grads.getD index none = some g →
       (∃ s2, reduceDirect index dstRank ready s = .ok s2 ∧
          s2.issuedReduces = s.issuedReduces ++ [{ payload := g * s.scaling, dst := dstRank }] ∧
          s2.gradToBeReduced = s.gradToBeReduced.set index false ∧
          (∀ r2, reduceDirect index dstRank r2 s2 = .ok s2))
     ∧ (∃ s2, reduceBucketed index dstRank ready s = .ok s2 ∧
          s2.gradToBeReduced = s.gradToBeReduced.set index false ∧
          (if { s.buckets.getD dstRank MBucket.default0 with
                paramsCheckedIn := (s.buckets.getD dstRank MBucket.default0).paramsCheckedIn + 1 }.isFull
           then
             s2.issuedReduces = s.issuedReduces ++
               [{ payload := (s.buckets.getD dstRank MBucket.default0).buffer * s.scaling,
                  dst := (s.buckets.getD dstRank MBucket.default0).destination }] ∧
             s2.buckets = s.buckets.set dstRank
               { s.buckets.getD dstRank MBucket.default0 with
                 paramsCheckedIn := (s.buckets.getD dstRank MBucket.default0).paramsCheckedIn + 1,
                 buffer := (s.buckets.getD dstRank MBucket.default0).buffer * s.scaling,
                 sent := true }
           else
             s2.issuedReduces = s.issuedReduces ∧
             s2.buckets = s.buckets.set dstRank
               { s.buckets.getD dstRank MBucket.default0 with
                 paramsCheckedIn := (s.buckets.getD dstRank MBucket.default0).paramsCheckedIn + 1 }) ∧
          (∀ r2, reduceBucketed index dstRank r2 s2 = .ok s2))) := by
  refine ⟨?_, ?_, ?_⟩
  · intro h
    constructor <;> simp [reduceDirect, reduceBucketed, h]
  · intro h
    simp only [List.getD_eq_getElem?_getD] at h
    constructor <;> simp [reduceDirect, reduceBucketed, h]
  · intro hAcc hPend hG
    simp only [List.getD_eq_getElem?_getD] at hPend hG
    constructor
    · have hd : reduceDirect index dstRank ready s = .ok (hookEpilogue
        { s with
          bucketFlushCallbackSet := true,
          gradToBeReduced := s.gradToBeReduced.set index false,
          grads := s.grads.set index (some (g * s.scaling)),
          gradBuffer := s.gradBuffer.set index (some (g * s.scaling)),
          workHandles := s.workHandles ++
            [{ op := { payload := g * s.scaling, dst := dstRank }, ready := ready,
               callback := .directCleanup index dstRank }],
          issuedReduces := s.issuedReduces ++ [{ payload := g * s.scaling, dst := dstRank }],
          reducedGrads := s.reducedGrads + 1 }) := by
        simp [reduceDirect, hAcc, hPend, hG]
      refine ⟨_, hd, ?_, ?_, ?_⟩
      · exact (hookEpilogue_proj _).2.1
      · exact (hookEpilogue_proj _).1
      · intro r2
        have hz : (hookEpilogue
          { s with
            bucketFlushCallbackSet := true,
            gradToBeReduced := s.gradToBeReduced.set index false,
            grads := s.grads.set index (some (g * s.scaling)),
            gradBuffer := s.gradBuffer.set index (some (g * s.scaling)),
            workHandles := s.workHandles ++
              [{ op := { payload := g * s.scaling, dst := dstRank }, ready := ready,
                 callback := .directCleanup index dstRank }],
            issuedReduces := s.issuedReduces ++ [{ payload := g * s.scaling, dst := dstRank }],
            reducedGrads := s.reducedGrads + 1 }).gradToBeReduced.getD index false = false := by
          rw [(hookEpilogue_proj _).1]
          exact getD_set_false _ _
        simp only [List.getD_eq_getElem?_getD] at hz
        simp [reduceDirect, hz]
    · by_cases hf : ({ s.buckets.getD dstRank MBucket.default0 with
          paramsCheckedIn := (s.buckets.getD dstRank MBucket.default0).paramsCheckedIn + 1 } : MBucket).isFull
      · have hb : reduceBucketed index dstRank ready s = .ok (hookEpilogue
          { s with
            bucketFlushCallbackSet := true,
            gradToBeReduced := s.gradToBeReduced.set index false,
            buckets := s.buckets.set dstRank
              { s.buckets.getD dstRank MBucket.default0 with
                paramsCheckedIn := (s.buckets.getD dstRank MBucket.default0).paramsCheckedIn + 1,
                buffer := (s.buckets.getD dstRank MBucket.default0).buffer * s.scaling,
                sent := true },
            workHandles := s.workHandles ++
              [{ op := { payload := (s.buckets.getD dstRank MBucket.default0).buffer * s.scaling,
                         dst := (s.buckets.getD dstRank MBucket.default0).destination },
                 ready := ready, callback := .noop }],
            issuedReduces := s.issuedReduces ++
              [{ payload := (s.buckets.getD dstRank MBucket.default0).buffer * s.scaling,
                 dst := (s.buckets.getD dstRank MBucket.default0).destination }],
            reducedGrads := s.reducedGrads + 1 }) := by
          have hf2 := hf
          simp only [List.getD_eq_getElem?_getD] at hf2
          simp [reduceBucketed, hAcc, hPend, hG, hf2]
        refine ⟨_, hb, ?_, ?_, ?_⟩
        · exact (hookEpilogue_proj _).1
        · rw [if_pos hf]
          exact ⟨(hookEpilogue_proj _).2.1, (hookEpilogue_proj _).2.2⟩
        · intro r2
          have hz : (hookEpilogue
            { s with
              bucketFlushCallbackSet := true,
              gradToBeReduced := s.gradToBeReduced.set index false,
              buckets := s.buckets.set dstRank
                { s.buckets.getD dstRank MBucket.default0 with
                  paramsCheckedIn := (s.buckets.getD dstRank MBucket.default0).paramsCheckedIn + 1,
                  buffer := (s.buckets.getD dstRank MBucket.default0).buffer * s.scaling,
                  sent := true },
              workHandles := s.workHandles ++
                [{ op := { payload := (s.buckets.getD dstRank MBucket.default0).buffer * s.scaling,
                           dst := (s.buckets.getD dstRank MBucket.default0).destination },
                   ready := ready, callback := .noop }],
              issuedReduces := s.issuedReduces ++
                [{ payload := (s.buckets.getD dstRank MBucket.default0).buffer * s.scaling,
                   dst := (s.buckets.getD dstRank MBucket.default0).destination }],
              reducedGrads := s.reducedGrads + 1 }).gradToBeReduced.getD index false = false := by
            rw [(hookEpilogue_proj _).1]
            exact getD_set_false _ _
          simp only [List.getD_eq_getElem?_getD] at hz
          simp [reduceBucketed, hz]
      · have hb : reduceBucketed index dstRank ready s = .ok (hookEpilogue
          { s with
            bucketFlushCallbackSet := true,
            gradToBeReduced := s.gradToBeReduced.set index false,
            buckets := s.buckets.set dstRank
              { s.buckets.getD dstRank MBucket.default0 with
                paramsCheckedIn := (s.buckets.getD dstRank MBucket.default0).paramsCheckedIn + 1 } }) := by
          have hf2 := hf
          simp only [List.getD_eq_getElem?_getD] at hf2
          simp [reduceBucketed, hAcc, hPend, hG, hf2]
        refine ⟨_, hb, ?_, ?_, ?_⟩
        · exact (hookEpilogue_proj _).1
        · rw [if_neg hf]
          exact ⟨(hookEpilogue_proj _).2.1, (hookEpilogue_proj _).2.2⟩
        · intro r2
          have hz : (hookEpilogue
            { s with
              bucketFlushCallbackSet := true,
              gradToBeReduced := s.gradToBeReduced.set index false,
              buckets := s.buckets.set dstRank
                { s.buckets.getD dstRank MBucket.default0 with
                  paramsCheckedIn := (s.buckets.getD dstRank MBucket.default0).paramsCheckedIn + 1 } }).gradToBeReduced.getD index false = false := by
            rw [(hookEpilogue_proj _).1]
            exact getD_set_false _ _
          simp only [List.getD_eq_getElem?_getD] at hz
          simp [reduceBucketed, hz]

/-- Witness for claim C1 at a concrete state: hypotheses hold and the
conclusion of the effective branch follows. -/
theorem grad_hook_reduces_once_witness :
    c1State.shouldAccumulateGrads = false ∧
    c1State.gradToBeReduced.getD 0 false = true ∧
    c1State.grads.getD 0 none = some 4 ∧
    ((∃ s2, reduceDirect 0 0 true c1State = .ok s2 ∧
        s2.issuedReduces = c1State.issuedReduces ++ [{ payload := 4 * c1State.scaling, dst := 0 }] ∧
        s2.gradToBeReduced = c1State.gradToBeReduced.set 0 false ∧
        (∀ r2, reduceDirect 0 0 r2 s2 = .ok s2))
     ∧ (∃ s2, reduceBucketed 0 0 true c1State = .ok s2 ∧
        s2.gradToBeReduced = c1State.gradToBeReduced.set 0 false ∧
        (if { c1State.buckets.getD 0 MBucket.default0 with
              paramsCheckedIn := (c1State.buckets.getD 0 MBucket.default0).paramsCheckedIn + 1 }.isFull
         then
           s2.issuedReduces = c1State.issuedReduces ++
             [{ payload := (c1State.buckets.getD 0 MBucket.default0).buffer * c1State.scaling,
                dst := (c1State.buckets.getD 0 MBucket.default0).destination }] ∧
           s2.buckets = c1State.buckets.set 0
             { c1State.buckets.getD 0 MBucket.default0 with
               paramsCheckedIn := (c1State.buckets.getD 0 MBucket.default0).paramsCheckedIn + 1,
               buffer := (c1State.buckets.getD 0 MBucket.default0).buffer * c1State.scaling,
               sent := true }
         else
           s2.issuedReduces = c1State.issuedReduces ∧
           s2.buckets = c1State.buckets.set 0
             { c1State.buckets.getD 0 MBucket.default0 with
               paramsCheckedIn := (c1State.buckets.getD 0 MBucket.default0).paramsCheckedIn + 1 }) ∧
        (∀ r2, reduceBucketed 0 0 r2 s2 = .ok s2))) :=
  ⟨rfl, rfl, rfl, (grad_hook_reduces_once c1State 0 0 true 4).2.2 rfl rfl rfl⟩

/-- Claim C2 counterexample: in this concrete state the module is in
eval mode, no no-sync scope is active (shouldAccumulateGrads is false)
or recently exited (accumulateGradsFlipped is false), buckets are in
use, and a bucket was never sent; the claim says the start-of-forward
assertion then fails fatally, but clear_counters succeeds, because the
source also relaxes the assertion when the module is not in training
mode. -/
theorem bucket_assert_claim_counterexample :
    c2State.shouldAccumulateGrads = false ∧
    c2State.accumulateGradsFlipped = false ∧
    c2State.useBuckets = true ∧
    (c2State.buckets.all (fun b => b.sent)) = false ∧
    (clear_counters c2State).isOk = true :=
  ⟨rfl, rfl, rfl, rfl, rfl⟩

/-- Claim C2 (amended): the deferred end-of-pass flush reduces exactly
the not-yet-sent buckets regardless of fill (scaling each buffer by one
over world size), marks every bucket sent, and blocks (waits on the
last handle) when at least one bucket was flushed; and the assertion at
the start of the next forward pass succeeds precisely when every bucket
was sent or the check is relaxed, where the relaxations are an active
no-sync scope, a no-sync scope exited since the last cycle, or eval
(non-training) mode. -/
theorem flush_and_bucket_assert (s : DDPState) (hub : s.useBuckets = true) :
    (∀ b ∈ (flush_buckets s).buckets, b.sent = true)
  ∧ (flush_buckets s).issuedReduces = s.issuedReduces ++
      ((s.buckets.filter (fun b => !b.sent)).map
        (fun b => { payload := b.buffer * s.scaling, dst := b.destination : ReduceOp }))
  ∧ ((∃ b ∈ s.buckets, b.sent = false) →
      (flush_buckets s).blockingWaits = s.blockingWaits + 1)
  ∧ ((clear_counters s).isOk = true ↔
      ∀ b ∈ s.buckets, (s.accumulateGradsFlipped = true ∨ s.training = false ∨
        s.shouldAccumulateGrads = true ∨ b.sent = true)) := by
  refine ⟨?_, rfl, ?_, ?_⟩
  · intro b hb
    simp only [flush_buckets, List.mem_map] at hb
    obtain ⟨a, ha, rfl⟩ := hb
    by_cases h : a.sent <;> simp [h]
  · rintro ⟨b, hb, hsent⟩
    have hany : s.buckets.any (fun b => !b.sent) = true := by
      rw [List.any_eq_true]
      exact ⟨b, hb, by rw [hsent]; rfl⟩
    simp [flush_buckets, hany]
  · by_cases hall : s.buckets.all (clearCountersCheck s) = true
    · have hc : (s.useBuckets && !(s.buckets.all (clearCountersCheck s))) = false := by
        rw [hall]
        simp
      have hok : (clear_counters s).isOk = true := by
        simp only [clear_counters, hc, Bool.false_eq_true, if_false]
        split_ifs <;> rfl
      rw [hok]
      simp only [true_iff]
      intro b hb
      have := List.all_eq_true.mp hall b hb
      simp only [clearCountersCheck, Bool.or_eq_true, Bool.not_eq_true'] at this
      tauto
    · have hallf : s.buckets.all (clearCountersCheck s) = false :=
        Bool.eq_false_iff.mpr hall
      have hc : (s.useBuckets && !(s.buckets.all (clearCountersCheck s))) = true := by
        rw [hub, hallf]
        rfl
      have hko : (clear_counters s).isOk = false := by
        simp only [clear_counters, hc]
        rfl
      rw [hko]
      constructor
      · intro h
        exact absurd h (by simp)
      · intro hforall
        exfalso
        apply hall
        rw [List.all_eq_true]
        intro b hb
        have := hforall b hb
        simp only [clearCountersCheck, Bool.or_eq_true, Bool.not_eq_true']
        tauto

/-- Witness for claim C2 at a concrete state with an unsent bucket. -/
theorem flush_and_bucket_assert_witness :
    c2State.useBuckets = true ∧
    (∀ b ∈ (flush_buckets c2State).buckets, b.sent = true) :=
  ⟨rfl, (flush_and_bucket_assert c2State rfl).1⟩

/-- Claim C3: the manual reduce entry point correctly fails when no
gradient is pending; but in a state with a pending gradient it returns
with the state unchanged: the lazy map over the registered hooks is
never consumed in the source, so no hook fires, no reduce is issued and
the gradient stays pending, contradicting the claim (and the source
comment saying the hooks are triggered). -/
theorem manual_reduce_lazy_map_bug :
    (∃ e, reduce c3StateIdle = .error e)
  ∧ c3StatePending.gradToBeReduced.getD 0 false = true
  ∧ reduce c3StatePending = .ok c3StatePending
  ∧ (reduce c3StatePending).map (fun s2 => s2.issuedReduces) = .ok [] :=
  ⟨⟨_, rfl⟩, rfl, rfl, rfl⟩

/-- Claim C10: when a positive reduce buffer size is requested together
with fp16 reduction, the constructor silently deactivates fp16
reduction: the derived configuration equals the one obtained with fp16
off, and every other configuration field is the one dictated by the
remaining arguments. -/
theorem init_fp16_deactivated (a : InitArgs) (hpos : 0 < a.reduceBufferSize)
    (hfp : a.reduceFP16 = true) :
    initConfig a = initConfig { a with reduceFP16 := false }
  ∧ (initConfig a).reduceFP16 = false
  ∧ (initConfig a).enableBroadcastBuffers = a.broadcastBuffers
  ∧ (initConfig a).autoRefreshTrainable = a.autoRefreshTrainable
  ∧ (initConfig a).bufferMaxSize = min a.reduceBufferSize a.modelSize
  ∧ (initConfig a).useBuckets = decide (0 < min a.reduceBufferSize a.modelSize) := by
  refine ⟨?_, ?_, rfl, rfl, rfl, rfl⟩
  · simp [initConfig, hfp, hpos]
  · simp [initConfig, hfp, hpos]

theorem bucketStep_buckets (w cap : ℕ) (st : LayoutState) (p : PParam) :
    (bucketStep w cap st p).buckets = bucketsCore w cap st.buckets p := by
  simp only [bucketStep]
  split_ifs <;> rfl

theorem bucketStep_rmax (w cap : ℕ) (st : LayoutState) (p : PParam) :
    (bucketStep w cap st p).reducedGradsMax =
      (if stepFits w cap st.buckets p then st.reducedGradsMax - 1 else st.reducedGradsMax) := by
  simp only [bucketStep]
  split_ifs <;> rfl

theorem foldl_bucketStep_eq (w cap : ℕ) (ps : List PParam) :
    ∀ st st' : LayoutState, st.buckets = st'.buckets →
      st.reducedGradsMax = st'.reducedGradsMax →
      ((ps.foldl (bucketStep w cap) st).buckets = (ps.foldl (bucketStep w cap) st').buckets ∧
       (ps.foldl (bucketStep w cap) st).reducedGradsMax
         = (ps.foldl (bucketStep w cap) st').reducedGradsMax) := by
  induction ps with
  | nil => exact fun st st' hb hr => ⟨hb, hr⟩
  | cons p t ih =>
    intro st st' hb hr
    simp only [List.foldl_cons]
    apply ih
    · rw [bucketStep_buckets, bucketStep_buckets, hb]
    · rw [bucketStep_rmax, bucketStep_rmax, hb, hr]

theorem setup_eq (w cap : ℕ) (ub : Bool) (ps : List PParam) (st st' : LayoutState)
    (hb : st.buckets = st'.buckets) :
    (setup_bucket_strategy w cap ub ps st).buckets
      = (setup_bucket_strategy w cap ub ps st').buckets ∧
    (setup_bucket_strategy w cap ub ps st).reducedGradsMax
      = (setup_bucket_strategy w cap ub ps st').reducedGradsMax := by
  cases ub with
  | false => exact ⟨hb, rfl⟩
  | true =>
    have h := foldl_bucketStep_eq w cap ps
      { st with reducedGradsMax := ps.length, buckets := ([] : DeviceBuckets) }
      { st' with reducedGradsMax := ps.length, buckets := ([] : DeviceBuckets) } rfl rfl
    constructor
    · show (ps.foldl (bucketStep w cap)
          { st with reducedGradsMax := ps.length, buckets := ([] : DeviceBuckets) }).buckets.map
            (fun q => (q.fst, q.snd.map trimBucket))
        = (ps.foldl (bucketStep w cap)
          { st' with reducedGradsMax := ps.length, buckets := ([] : DeviceBuckets) }).buckets.map
            (fun q => (q.fst, q.snd.map trimBucket))
      rw [h.1]
    · show (ps.foldl (bucketStep w cap)
          { st with reducedGradsMax := ps.length, buckets := ([] : DeviceBuckets) }).reducedGradsMax
          + ((bucketListOf (ps.foldl (bucketStep w cap)
              { st with reducedGradsMax := ps.length, buckets := ([] : DeviceBuckets) }).buckets).filter
                (fun b => decide (0 < b.maxParamsCheckedIn))).length
        = (ps.foldl (bucketStep w cap)
          { st' with reducedGradsMax := ps.length, buckets := ([] : DeviceBuckets) }).reducedGradsMax
          + ((bucketListOf (ps.foldl (bucketStep w cap)
              { st' with reducedGradsMax := ps.length, buckets := ([] : DeviceBuckets) }).buckets).filter
                (fun b => decide (0 < b.maxParamsCheckedIn))).length
      rw [h.1, h.2]

theorem foldl_or_true (l : List Bool) : l.foldl (fun x y => x || y) true = true := by
  induction l with
  | nil => rfl
  | cons a t ih => simpa using ih

theorem foldl_or_map_true (l : List PParam) (h : l ≠ []) :
    (l.map (fun _ => true)).foldl (fun x y => x || y) false = true := by
  cases l with
  | nil => exact absurd rfl h
  | cons p t => simpa using foldl_or_true (t.map (fun _ => true))

theorem foldl_or_replicate_true (n : ℕ) (h : n ≠ 0) :
    (List.replicate n true).foldl (fun x y => x || y) false = true := by
  cases n with
  | zero => exact absurd rfl h
  | succ m => simpa [List.replicate_succ] using foldl_or_true (List.replicate m true)

theorem refresh_ok_eq (s s1 : RState) (h : refresh_trainable s = .ok s1) :
    s.gradToBeReduced.foldl (fun x y => x || y) false = false ∧
    s1 = { s with
      trainableParams := sortByNumel (s.allParams.filter (fun p => p.requiresGrad)),
      gradToBeReduced :=
        (sortByNumel (s.allParams.filter (fun p => p.requiresGrad))).map (fun _ => true),
      layout := setup_bucket_strategy s.worldSize s.bufferMaxSize s.useBuckets
        (sortByNumel (s.allParams.filter (fun p => p.requiresGrad))) s.layout } := by
  by_cases hp : s.gradToBeReduced.foldl (fun x y => x || y) false = true
  · simp [refresh_trainable, hp] at h
  · have hp' := Bool.eq_false_iff.mpr hp
    refine ⟨hp', ?_⟩
    simp only [refresh_trainable, hp', Bool.false_eq_true, if_false, Except.ok.injEq] at h
    exact h.symm

/-- Claim C4 counterexample: on a state with one trainable parameter
and no pending gradient, the first refresh_trainable succeeds, but
calling it again immediately fails the pending-gradients assertion,
because the first call re-armed every per-parameter pending flag; so
two back-to-back calls do not both succeed as the claim states. -/
theorem refresh_twice_counterexample :
    (refresh_trainable c4State).isOk = true ∧
    (refresh_trainable c4State).bind refresh_trainable
      = .error ("Grads waiting to be reduced") :=
  ⟨rfl, rfl⟩

/-- Claim C4 (amended): refresh_trainable fails exactly when some
gradient is marked pending; a successful call re-marks every trainable
parameter pending, so an immediate second call fails whenever at least
one trainable parameter exists; and whenever two calls (on the same
parameter set, configuration and prior bucket table) both succeed, they
produce identical trainable-parameter lists (hence identical shard
assignments, the owner rank being carried by each parameter) and
identical bucket layouts. -/
theorem refresh_trainable_idempotent_amended (s t : RState) :
    ((∃ e, refresh_trainable s = .error e) ↔
        s.gradToBeReduced.foldl (fun x y => x || y) false = true)
  ∧ (∀ s1, refresh_trainable s = .ok s1 → s1.trainableParams ≠ [] →
        ∃ e, refresh_trainable s1 = .error e)
  ∧ (∀ s1 t1, refresh_trainable s = .ok s1 → refresh_trainable t = .ok t1 →
        s.allParams = t.allParams → s.worldSize = t.worldSize →
        s.bufferMaxSize = t.bufferMaxSize → s.useBuckets = t.useBuckets →
        s.layout.buckets = t.layout.buckets →
        s1.trainableParams = t1.trainableParams ∧
        s1.layout.buckets = t1.layout.buckets ∧
        s1.layout.reducedGradsMax = t1.layout.reducedGradsMax) := by
  refine ⟨?_, ?_, ?_⟩
  · by_cases hp : s.gradToBeReduced.foldl (fun x y => x || y) false = true
    · simp [refresh_trainable, hp]
    · have hp' := Bool.eq_false_iff.mpr hp
      simp [refresh_trainable, hp']
  · intro s1 h hne
    obtain ⟨hp, rfl⟩ := refresh_ok_eq s s1 h
    have hne2 : sortByNumel (s.allParams.filter (fun p => p.requiresGrad)) ≠ [] := hne
    have ht := foldl_or_map_true _ hne2
    have hlen : (sortByNumel (s.allParams.filter (fun p => p.requiresGrad))).length ≠ 0 :=
      fun hh => hne2 (List.eq_nil_of_length_eq_zero hh)
    have hrep := foldl_or_replicate_true _ hlen
    exact ⟨"Grads waiting to be reduced", by simp [refresh_trainable, ht, hrep]⟩
  · intro s1 t1 h1 h2 hap hw hbm hub hlb
    obtain ⟨hp1, rfl⟩ := refresh_ok_eq s s1 h1
    obtain ⟨hp2, rfl⟩ := refresh_ok_eq t t1 h2
    rw [hap, hw, hbm, hub]
    have hsl := setup_eq t.worldSize t.bufferMaxSize t.useBuckets
      (sortByNumel (t.allParams.filter (fun p => p.requiresGrad))) s.layout t.layout hlb
    exact ⟨rfl, hsl.1, hsl.2⟩

/-- Witness for claim C4 at a concrete state: the first refresh
succeeds and, one trainable parameter being present, the second
immediately fails. -/
theorem refresh_trainable_idempotent_amended_witness :
    refresh_trainable c4State = .ok c4After ∧ c4After.trainableParams ≠ [] ∧
    (∃ e, refresh_trainable c4After = .error e) :=
  ⟨rfl, by decide,
   (refresh_trainable_idempotent_amended c4State c4State).2.1 c4After rfl (by decide)⟩

theorem mem_insertParam (p a : PParam) (l : List PParam) :
    a ∈ insertParam p l ↔ a = p ∨ a ∈ l := by
  induction l with
  | nil => simp [insertParam]
  | cons q qs ih =>
    simp only [insertParam]
    split_ifs with h
    · simp only [List.mem_cons, ih]
      tauto
    · simp [List.mem_cons]

theorem pairwise_insertParam (p : PParam) (l : List PParam)
    (h : l.Pairwise (fun a b => a.numel ≤ b.numel)) :
    (insertParam p l).Pairwise (fun a b => a.numel ≤ b.numel) := by
  induction l with
  | nil => simp [insertParam]
  | cons q qs ih =>
    rw [List.pairwise_cons] at h
    obtain ⟨hq, hqs⟩ := h
    simp only [insertParam]
    split_ifs with hle
    · rw [List.pairwise_cons]
      refine ⟨?_, ih hqs⟩
      intro a ha
      rcases (mem_insertParam p a qs).mp ha with rfl | ha2
      · exact hle
      · exact hq a ha2
    · rw [List.pairwise_cons]
      have hpq : p.numel ≤ q.numel := Nat.le_of_not_le hle
      refine ⟨?_, List.pairwise_cons.mpr ⟨hq, hqs⟩⟩
      intro a ha
      rcases List.mem_cons.mp ha with rfl | ha2
      · exact hpq
      · exact Nat.le_trans hpq (hq a ha2)

theorem sortByNumel_sorted_aux (ps : List PParam) :
    ∀ acc : List PParam, acc.Pairwise (fun a b => a.numel ≤ b.numel) →
      (ps.foldl (fun acc p => insertParam p acc) acc).Pairwise (fun a b => a.numel ≤ b.numel) := by
  induction ps with
  | nil => exact fun acc h => h
  | cons p t ih => exact fun acc h => ih _ (pairwise_insertParam p acc h)

theorem walkInv_nil (w cap : ℕ) : walkInv w cap [] :=
  fun q hq => absurd hq (List.not_mem_nil q)

theorem walkInv_ensureDevice {w cap : ℕ} {bs : DeviceBuckets} (h : walkInv w cap bs) (d : ℕ) :
    walkInv w cap (ensureDevice w cap bs d) := by
  unfold ensureDevice
  split_ifs with hd
  · exact h
  · intro q hq
    rcases List.mem_append.mp hq with hq1 | hq2
    · exact h q hq1
    · rw [List.mem_singleton.mp hq2]
      refine ⟨List.length_replicate _ _, ?_⟩
      intro b hb
      rw [List.eq_of_mem_replicate hb]
      exact ⟨Nat.zero_le _, rfl⟩

theorem walkInv_getBucketAt {w cap : ℕ} {bs : DeviceBuckets} (h : walkInv w cap bs) (d r : ℕ) :
    (getBucketAt cap bs d r).fill ≤ cap ∧
    (getBucketAt cap bs d r).buffer = List.replicate cap (0 : ℚ) := by
  unfold getBucketAt
  cases hag : assocGet bs d with
  | none => exact ⟨Nat.zero_le _, rfl⟩
  | some l =>
    have hmem : ∃ q ∈ bs, q.snd = l := by
      unfold assocGet at hag
      cases hf : bs.find? (fun q => q.fst == d) with
      | none => rw [hf] at hag; simp at hag
      | some q =>
        rw [hf] at hag
        simp only [Option.map_some'] at hag
        exact ⟨q, List.mem_of_find?_eq_some hf, Option.some_inj.mp hag⟩
    obtain ⟨q, hq, hql⟩ := hmem
    subst hql
    rcases Nat.lt_or_ge r q.snd.length with hr | hr
    · rw [Option.getD_some, List.getD_eq_getElem q.snd _ hr]
      exact (h q hq).2 _ (List.getElem_mem hr)
    · rw [Option.getD_some, List.getD_eq_default q.snd _ hr]
      exact ⟨Nat.zero_le _, rfl⟩

theorem walkInv_putBucket {w cap : ℕ} {bs : DeviceBuckets} {b1 : LBucket}
    (h : walkInv w cap bs)
    (hb1 : b1.fill ≤ cap ∧ b1.buffer = List.replicate cap (0 : ℚ)) (d r : ℕ) :
    walkInv w cap (putBucket bs d r b1) := by
  intro q hq
  unfold putBucket at hq
  rcases List.mem_map.mp hq with ⟨q0, hq0, rfl⟩
  by_cases hqd : (q0.fst == d) = true
  · simp only [hqd, if_true]
    refine ⟨by rw [List.length_set]; exact (h q0 hq0).1, ?_⟩
    intro b hbmem
    rcases List.mem_or_eq_of_mem_set hbmem with hmem | rfl
    · exact (h q0 hq0).2 b hmem
    · exact hb1
  · simp only [hqd, if_false]
    exact h q0 hq0

theorem walkInv_bucketsCore {w cap : ℕ} {bs : DeviceBuckets} (h : walkInv w cap bs)
    (p : PParam) : walkInv w cap (bucketsCore w cap bs p) := by
  unfold bucketsCore
  have h1 := walkInv_ensureDevice h p.device
  have hget := walkInv_getBucketAt h1 p.device p.rank
  apply walkInv_putBucket h1 _ p.device p.rank
  split_ifs with hfit
  · unfold stepFits paramFits at hfit
    refine ⟨Nat.le_of_lt (of_decide_eq_true hfit), hget.2⟩
  · exact hget

theorem walkInv_foldl (w cap : ℕ) (ps : List PParam) :
    ∀ bs : DeviceBuckets, walkInv w cap bs →
      walkInv w cap (ps.foldl (bucketsCore w cap) bs) := by
  induction ps with
  | nil => exact fun bs h => h
  | cons p t ih => exact fun bs h => ih _ (walkInv_bucketsCore h p)

theorem foldl_bucketStep_buckets (w cap : ℕ) (ps : List PParam) :
    ∀ st : LayoutState,
      (ps.foldl (bucketStep w cap) st).buckets = ps.foldl (bucketsCore w cap) st.buckets := by
  induction ps with
  | nil => exact fun st => rfl
  | cons p t ih =>
    intro st
    simp only [List.foldl_cons]
    rw [ih, bucketStep_buckets]

theorem deviceKeys_putBucket (bs : DeviceBuckets) (d r : ℕ) (b : LBucket) :
    deviceKeys (putBucket bs d r b) = deviceKeys bs := by
  unfold deviceKeys putBucket
  rw [List.map_map]
  apply List.map_congr_left
  intro q hq
  by_cases hqd : q.fst = d <;> simp [hqd]

theorem assocGet_isSome_iff_mem (bs : DeviceBuckets) (x : ℕ) :
    (assocGet bs x).isSome = true ↔ x ∈ deviceKeys bs := by
  induction bs with
  | nil => simp [assocGet, deviceKeys]
  | cons q t ih =>
    by_cases hqx : q.fst = x
    · simp [assocGet, deviceKeys, List.find?_cons, hqx]
    · have hb : (q.fst == x) = false := by simpa using hqx
      simp only [assocGet, deviceKeys, List.map_cons, List.mem_cons, List.find?_cons, hb,
        Bool.false_eq_true, if_false]
      constructor
      · intro hm
        exact Or.inr (ih.mp hm)
      · intro hm
        rcases hm with h1 | h2
        · exact absurd h1.symm hqx
        · exact ih.mpr h2

theorem deviceKeys_bucketsCore_mem (w cap : ℕ) (bs : DeviceBuckets) (p : PParam) (x : ℕ) :
    x ∈ deviceKeys (bucketsCore w cap bs p) ↔ x ∈ deviceKeys bs ∨ x = p.device := by
  unfold bucketsCore
  rw [deviceKeys_putBucket]
  unfold ensureDevice
  split_ifs with hd
  · constructor
    · exact fun h => Or.inl h
    · rintro (h | rfl)
      · exact h
      · exact (assocGet_isSome_iff_mem bs p.device).mp hd
  · unfold deviceKeys
    rw [List.map_append]
    simp [List.mem_append]

theorem foldl_bucketsCore_keys (w cap : ℕ) (ps : List PParam) :
    ∀ bs : DeviceBuckets, ∀ x : ℕ,
      (x ∈ deviceKeys (ps.foldl (bucketsCore w cap) bs) ↔
        x ∈ deviceKeys bs ∨ x ∈ ps.map (fun p => p.device)) := by
  induction ps with
  | nil => intro bs x; simp
  | cons p t ih =>
    intro bs x
    simp only [List.foldl_cons, List.map_cons, List.mem_cons]
    rw [ih, deviceKeys_bucketsCore_mem]
    tauto

theorem views_bounded (w cap : ℕ) (ps : List PParam) :
    ∀ st : LayoutState, (∀ v ∈ st.views, v.offset + v.len < cap) →
      ∀ v ∈ (ps.foldl (bucketStep w cap) st).views, v.offset + v.len < cap := by
  induction ps with
  | nil => exact fun st h => h
  | cons p t ih =>
    intro st h
    simp only [List.foldl_cons]
    apply ih
    intro v hv
    by_cases hfit : stepFits w cap st.buckets p = true
    · simp only [bucketStep, hfit, if_true] at hv
      rcases List.mem_append.mp hv with hv1 | hv2
      · exact h v hv1
      · rw [List.mem_singleton.mp hv2]
        unfold stepFits paramFits at hfit
        exact of_decide_eq_true hfit
    · simp only [bucketStep, hfit, Bool.false_eq_true, if_false] at hv
      exact h v hv

/-- Claim C5: the bucket-layout pass of setup_bucket_strategy.  First,
the trainable-parameter list it walks (produced by the by-size sort of
refresh_trainable) is in ascending element-count order.  Second, each
walked parameter is assigned to its (device, owner-rank) bucket exactly
when the fill offset plus its element count stays strictly below the
configured capacity (the room-left criterion), and falls through to
direct reduction otherwise.  Third, throughout the walk every allocated
buffer has exactly one bucket per rank, a zero-initialized buffer of
exactly the configured capacity, and a fill offset within that
capacity.  Fourth, a device owns buckets exactly when some walked
parameter lives on it (lazy allocation).  Fifth, after the walk every
buffer is trimmed to its exact content size (still all zeros at setup
time) with the fill offset within capacity and the bucket marked sent.
Sixth, every gradient view recorded into a bucket lies within the
allocated capacity. -/
theorem bucket_layout_correct (w cap : ℕ) (ps : List PParam) :
    (sortByNumel ps).Pairwise (fun a b => a.numel ≤ b.numel)
  ∧ (∀ (st : LayoutState) (p : PParam),
      (bucketStep w cap st p).shouldBucketGrad
        = st.shouldBucketGrad ++ [stepFits w cap st.buckets p] ∧
      stepFits w cap st.buckets p
        = decide ((getBucketAt cap (ensureDevice w cap st.buckets p.device) p.device p.rank).fill
            + p.numel < cap))
  ∧ (∀ n : ℕ, walkInv w cap ((ps.take n).foldl (bucketsCore w cap) []))
  ∧ (∀ d : ℕ, (assocGet (ps.foldl (bucketsCore w cap) []) d).isSome = true ↔
      d ∈ ps.map (fun p => p.device))
  ∧ (∀ (st : LayoutState) (q : ℕ × List LBucket) (b : LBucket),
      q ∈ (setup_bucket_strategy w cap true ps st).buckets → b ∈ q.snd →
      b.buffer = List.replicate b.fill (0 : ℚ) ∧ b.fill ≤ cap ∧ b.sent = true)
  ∧ (∀ st : LayoutState, st.views = [] →
      ∀ v ∈ (ps.foldl (bucketStep w cap) st).views, v.offset + v.len < cap) := by
  refine ⟨sortByNumel_sorted_aux ps [] List.Pairwise.nil, ?_, ?_, ?_, ?_, ?_⟩
  · intro st p
    constructor
    · by_cases hfit : stepFits w cap st.buckets p = true
      · simp [bucketStep, hfit]
      · have hfit2 := Bool.eq_false_iff.mpr hfit
        simp [bucketStep, hfit2]
    · rfl
  · exact fun n => walkInv_foldl w cap (ps.take n) [] (walkInv_nil w cap)
  · intro d
    rw [assocGet_isSome_iff_mem, foldl_bucketsCore_keys]
    simp [deviceKeys]
  · intro st q b hq hb
    have hw : (setup_bucket_strategy w cap true ps st).buckets
        = (ps.foldl (bucketsCore w cap) []).map (fun q => (q.fst, q.snd.map trimBucket)) := by
      show ((ps.foldl (bucketStep w cap)
          { st with reducedGradsMax := ps.length, buckets := ([] : DeviceBuckets) }).buckets.map
            (fun q => (q.fst, q.snd.map trimBucket)))
        = (ps.foldl (bucketsCore w cap) []).map (fun q => (q.fst, q.snd.map trimBucket))
      rw [foldl_bucketStep_buckets]
    rw [hw] at hq
    rcases List.mem_map.mp hq with ⟨q0, hq0, rfl⟩
    rcases List.mem_map.mp hb with ⟨b0, hb0, rfl⟩
    have hinv := (walkInv_foldl w cap ps [] (walkInv_nil w cap)) q0 hq0
    have hbinv := hinv.2 b0 hb0
    unfold trimBucket
    refine ⟨?_, hbinv.1, rfl⟩
    rw [hbinv.2, List.take_replicate, Nat.min_eq_left hbinv.1]
  · intro st hst
    apply views_bounded
    rw [hst]
    intro v hv
    exact absurd hv (List.not_mem_nil v)

/-- Witness for claim C5 at a concrete walk: one parameter of size one
on device zero with capacity three; its recorded view fits within the
capacity, and the trimmed result has exact-size zero buffers. -/
theorem bucket_layout_correct_witness :
    ({ buckets := [], shouldBucketGrad := [], views := [],
       reducedGradsMax := 1 } : LayoutState).views = [] ∧
    ({ device := 0, rank := 0, offset := 0, len := 1 } : ViewRec) ∈
      ([{ numel := 1, requiresGrad := true, device := 0, rank := 0 }].foldl (bucketStep 2 3)
        { buckets := [], shouldBucketGrad := [], views := [], reducedGradsMax := 1 }).views ∧
    (0 : ℕ) + 1 < 3 :=
  ⟨rfl, by decide,
   (bucket_layout_correct 2 3 [{ numel := 1, requiresGrad := true, device := 0, rank := 0 }]).2.2.2.2.2
     { buckets := [], shouldBucketGrad := [], views := [], reducedGradsMax := 1 } rfl
     { device := 0, rank := 0, offset := 0, len := 1 } (by decide)⟩

/-- Witness for claim C10 at concrete constructor arguments. -/
theorem init_fp16_deactivated_witness :
    0 < c10Args.reduceBufferSize ∧ c10Args.reduceFP16 = true ∧
    (initConfig c10Args = initConfig { c10Args with reduceFP16 := false }
     ∧ (initConfig c10Args).reduceFP16 = false
     ∧ (initConfig c10Args).enableBroadcastBuffers = c10Args.broadcastBuffers
     ∧ (initConfig c10Args).autoRefreshTrainable = c10Args.autoRefreshTrainable
     ∧ (initConfig c10Args).bufferMaxSize = min c10Args.reduceBufferSize c10Args.modelSize
     ∧ (initConfig c10Args).useBuckets = decide (0 < min c10Args.reduceBufferSize c10Args.modelSize)) :=
  ⟨by decide, rfl, init_fp16_deactivated c10Args (by decide) rfl⟩

end SDDP

namespace Pipe

theorem foldl_max_acc_le (l : List (ℕ × ℕ)) (f : ℕ × ℕ → ℕ) :
    ∀ a : ℕ, a ≤ l.foldl (fun m q => max m (f q)) a := by
  induction l with
  | nil => exact fun a => Nat.le_refl a
  | cons q t ih =>
    intro a
    exact Nat.le_trans (Nat.le_max_left a (f q)) (ih (max a (f q)))

theorem foldl_max_ge (l : List (ℕ × ℕ)) (f : ℕ × ℕ → ℕ) (p : ℕ × ℕ) (hp : p ∈ l) :
    ∀ a : ℕ, f p ≤ l.foldl (fun m q => max m (f q)) a := by
  induction l with
  | nil => cases hp
  | cons q t ih =>
    intro a
    rcases List.mem_cons.mp hp with rfl | hmem
    · exact Nat.le_trans (Nat.le_max_right a (f p)) (foldl_max_acc_le t f (max a (f p)))
    · exact ih hmem (max a (f q))

theorem mem_taskList (nStages chunks c s : ℕ) :
    (c, s) ∈ taskList nStages chunks ↔ c < chunks ∧ s < nStages := by
  simp [taskList]

theorem tickStart_succ (nStages chunks : ℕ) (lats : List ℕ) (t : ℕ) :
    tickStart nStages chunks lats (t + 1)
      = tickStart nStages chunks lats t + tickDur nStages chunks lats t := by
  unfold tickStart
  rw [List.range_succ, List.foldl_append]
  rfl

theorem lat_le_tickDur (nStages chunks : ℕ) (lats : List ℕ) (c s : ℕ)
    (hc : c < chunks) (hs : s < nStages) :
    latOf lats s ≤ tickDur nStages chunks lats (c + s) := by
  unfold tickDur
  have hmem : (c, s) ∈ tickTasks nStages chunks (c + s) := by
    unfold tickTasks
    rw [List.mem_filter]
    exact ⟨(mem_taskList nStages chunks c s).mpr ⟨hc, hs⟩, by simp⟩
  exact foldl_max_ge _ (fun p => latOf lats p.snd) (c, s) hmem 0

theorem latOf_pos (nStages : ℕ) (lats : List ℕ) (hpos : ∀ x ∈ lats, 0 < x)
    (hlen : lats.length = nStages) (s : ℕ) (hs : s < nStages) : 0 < latOf lats s := by
  unfold latOf
  have hs2 : s < lats.length := by rw [hlen]; exact hs
  rw [List.getD_eq_getElem lats _ hs2]
  exact hpos _ (List.getElem_mem hs2)

/-- Claim C6 (claims about the pipeline scheduler are modeled from the
spec, the pipeline source not being under src): under the lockstep
wavefront schedule (task (chunk, stage) runs at clock tick
chunk + stage, the clock advancing when the slowest task of the tick
finishes), with positive per-stage latencies: a stage completes its
micro-batches in strictly increasing micro-batch order; stage s + 1
completes micro-batch c strictly after stage s does; a task starts only
after the same stage finished the previous micro-batch and after the
previous stage finished the same micro-batch; and for the concrete
two-stage, three-chunk pipeline where stage one is ten times slower,
the completion order is exactly
(0,0), (1,0), (0,1), (2,0), (1,1), (2,1) in (micro-batch, stage)
form. -/
theorem lockstep_schedule (nStages chunks : ℕ) (lats : List ℕ)
    (hpos : ∀ x ∈ lats, 0 < x) (hlen : lats.length = nStages) :
    (∀ c s : ℕ, c + 1 < chunks → s < nStages →
       completeAt nStages chunks lats (c, s) < completeAt nStages chunks lats (c + 1, s))
  ∧ (∀ c s : ℕ, c < chunks → s + 1 < nStages →
       completeAt nStages chunks lats (c, s) < completeAt nStages chunks lats (c, s + 1))
  ∧ (∀ c s : ℕ, c < chunks → s < nStages →
       completeAt nStages chunks lats (c, s) ≤ startAt nStages chunks lats (c + 1, s) ∧
       completeAt nStages chunks lats (c, s) ≤ startAt nStages chunks lats (c, s + 1))
  ∧ completionOrder 2 3 [1, 10] = [(0, 0), (1, 0), (0, 1), (2, 0), (1, 1), (2, 1)] := by
  refine ⟨?_, ?_, ?_, by decide⟩
  · intro c s hc hs
    have hlat := latOf_pos nStages lats hpos hlen s hs
    have hle := lat_le_tickDur nStages chunks lats c s (Nat.lt_of_succ_lt hc) hs
    simp only [completeAt]
    have he : c + 1 + s = (c + s) + 1 := by omega
    rw [he, tickStart_succ]
    omega
  · intro c s hc hs
    have hlat := latOf_pos nStages lats hpos hlen (s + 1) hs
    have hle := lat_le_tickDur nStages chunks lats c s hc (Nat.lt_of_succ_lt hs)
    simp only [completeAt]
    have he : c + (s + 1) = (c + s) + 1 := by omega
    rw [he, tickStart_succ]
    omega
  · intro c s hc hs
    have hle := lat_le_tickDur nStages chunks lats c s hc hs
    simp only [completeAt, startAt]
    have he1 : c + 1 + s = (c + s) + 1 := by omega
    have he2 : c + (s + 1) = (c + s) + 1 := by omega
    rw [he1, he2, tickStart_succ]
    omega

/-- Witness for claim C6 at the concrete two-stage three-chunk
instance with latencies one and ten. -/
theorem lockstep_schedule_witness :
    (∀ x ∈ ([1, 10] : List ℕ), 0 < x) ∧ ([1, 10] : List ℕ).length = 2 ∧
    ((∀ c s : ℕ, c + 1 < 3 → s < 2 →
        completeAt 2 3 [1, 10] (c, s) < completeAt 2 3 [1, 10] (c + 1, s))
     ∧ (∀ c s : ℕ, c < 3 → s + 1 < 2 →
        completeAt 2 3 [1, 10] (c, s) < completeAt 2 3 [1, 10] (c, s + 1))
     ∧ (∀ c s : ℕ, c < 3 → s < 2 →
        completeAt 2 3 [1, 10] (c, s) ≤ startAt 2 3 [1, 10] (c + 1, s) ∧
        completeAt 2 3 [1, 10] (c, s) ≤ startAt 2 3 [1, 10] (c, s + 1))
     ∧ completionOrder 2 3 [1, 10] = [(0, 0), (1, 0), (0, 1), (2, 0), (1, 1), (2, 1)]) :=
  ⟨by decide, rfl, lockstep_schedule 2 3 [1, 10] (by decide) rfl⟩

/-- Claim C7 (modeled from the spec, the pipeline source not being
under src): with the cooperative cancellation of the clock schedule, a
task already dispatched when a fault occurs finishes but no later tick
is dispatched.  For the four-stage, three-chunk chain whose last stage
always raises, the instrumented stage two runs exactly two times (not
three), and the surfaced outcome is the originally raised exception;
in general no task of a tick after the fault tick executes, and any
surfaced error is one actually raised by a stage, not a replacement. -/
theorem early_stop_bounded :
    execCount c7Beh 4 3 2 = 2
  ∧ pipeResult c7Beh 4 3 = .error ("ExpectedException")
  ∧ (∀ (beh : List StageKind) (nS ch ft : ℕ) (p : ℕ × ℕ),
      faultTick beh nS ch = some ft → ft < p.fst + p.snd →
      p ∉ executedTasks beh nS ch)
  ∧ (∀ (beh : List StageKind) (nS ch : ℕ) (e : String),
      pipeResult beh nS ch = .error e → ∃ st, stageRaises beh st = some e) := by
  refine ⟨by decide, rfl, ?_, ?_⟩
  · intro beh nS ch ft p hft hgt hmem
    unfold executedTasks at hmem
    rw [hft] at hmem
    rw [List.mem_filter] at hmem
    have := of_decide_eq_true hmem.2
    omega
  · intro beh nS ch e h
    cases hft : faultTick beh nS ch with
    | none => simp [pipeResult, hft] at h
    | some ft =>
      cases hfind : (tickTasks nS ch ft).find? (fun p => (stageRaises beh p.snd).isSome) with
      | none => simp [pipeResult, hft, hfind] at h
      | some p =>
        cases hsr : stageRaises beh p.snd with
        | none => simp [pipeResult, hft, hfind, hsr] at h
        | some e2 =>
          refine ⟨p.snd, ?_⟩
          simp only [pipeResult, hft, hfind, hsr, Except.error.injEq] at h
          rw [hsr, h]

/-- Witness for claim C7: the fault of the concrete chain occurs at
tick three, and the stage-two task of micro-batch two (tick four) is
never executed. -/
theorem early_stop_bounded_witness :
    faultTick c7Beh 4 3 = some 3 ∧ 3 < 2 + 2 ∧
    ((2, 2) : ℕ × ℕ) ∉ executedTasks c7Beh 4 3 :=
  ⟨by decide, by decide,
   early_stop_bounded.2.2.1 c7Beh 4 3 3 (2, 2) (by decide) (by decide)⟩

/-- Claim C8 (modeled from the spec, the pipeline source not being
under src): the build-time validation of a pipeline: a balance with a
non-positive entry or a sum different from the number of child units
fails with a ValueError; with a valid balance, fewer devices than
stages fails with an IndexError; next, a chunk count below one fails
with a ValueError; next, an unknown checkpoint policy fails with a
ValueError; and a successful build implies every one of these
validations passed, with the extra devices discarded and no argument
silently coerced. -/
theorem build_validation (nUnits : ℕ) (balance : List ℤ) (devices : List ℕ) (chunks : ℤ)
    (checkpoint : String) :
    ((balance.any (fun b => decide (b ≤ 0)) = true ∨ balance.sum ≠ (nUnits : ℤ)) →
      ∃ m, buildPipe nUnits balance devices chunks checkpoint = .error (.valueError m))
  ∧ (balance.any (fun b => decide (b ≤ 0)) = false → balance.sum = (nUnits : ℤ) →
      devices.length < balance.length →
      ∃ m, buildPipe nUnits balance devices chunks checkpoint = .error (.indexError m))
  ∧ (balance.any (fun b => decide (b ≤ 0)) = false → balance.sum = (nUnits : ℤ) →
      ¬ devices.length < balance.length → chunks < 1 →
      ∃ m, buildPipe nUnits balance devices chunks checkpoint = .error (.valueError m))
  ∧ (balance.any (fun b => decide (b ≤ 0)) = false → balance.sum = (nUnits : ℤ) →
      ¬ devices.length < balance.length → ¬ chunks < 1 →
      checkpoint ≠ "always" → checkpoint ≠ "except_last" → checkpoint ≠ "never" →
      ∃ m, buildPipe nUnits balance devices chunks checkpoint = .error (.valueError m))
  ∧ (∀ p, buildPipe nUnits balance devices chunks checkpoint = .ok p →
      (∀ b ∈ balance, 0 < b) ∧ balance.sum = (nUnits : ℤ) ∧ 1 ≤ chunks ∧
      (checkpoint = "always" ∨ checkpoint = "except_last" ∨ checkpoint = "never") ∧
      p.balance = balance.map Int.toNat ∧
      p.devices = devices.take balance.length ∧
      p.chunks = chunks.toNat ∧ p.checkpoint = checkpoint) := by
  refine ⟨?_, ?_, ?_, ?_, ?_⟩
  · intro h
    unfold buildPipe
    rcases h with h1 | h2
    · rw [if_pos h1]
      exact ⟨_, rfl⟩
    · by_cases h1 : balance.any (fun b => decide (b ≤ 0)) = true
      · rw [if_pos h1]
        exact ⟨_, rfl⟩
      · rw [if_neg h1, if_pos h2]
        exact ⟨_, rfl⟩
  · intro h1 h2 h3
    unfold buildPipe
    rw [if_neg (by simp [h1]), if_neg (by simp [h2]), if_pos h3]
    exact ⟨_, rfl⟩
  · intro h1 h2 h3 h4
    unfold buildPipe
    rw [if_neg (by simp [h1]), if_neg (by simp [h2]), if_neg h3, if_pos h4]
    exact ⟨_, rfl⟩
  · intro h1 h2 h3 h4 h5 h6 h7
    unfold buildPipe
    rw [if_neg (by simp [h1]), if_neg (by simp [h2]), if_neg h3, if_neg h4,
      if_pos ⟨h5, h6, h7⟩]
    exact ⟨_, rfl⟩
  · intro p hp
    unfold buildPipe at hp
    split_ifs at hp with h1 h2 h3 h4 h5
    all_goals injection hp with hp2
    rw [← hp2]
    refine ⟨?_, not_not.mp h2, by omega, by tauto, rfl, rfl, rfl, rfl⟩
    intro b hb
    have hb2 : ¬ (b ≤ 0) := by
      intro hle
      apply absurd h1
      simp only [not_not]
      rw [List.any_eq_true]
      exact ⟨b, hb, decide_eq_true hle⟩
    omega

/-- Witness for claim C8: with a valid balance of two stages but a
single device, building fails with an IndexError. -/
theorem build_validation_witness :
    (([1, 1] : List ℤ).any (fun b => decide (b ≤ 0)) = false) ∧
    ([1, 1] : List ℤ).sum = ((2 : ℕ) : ℤ) ∧ ([0] : List ℕ).length < ([1, 1] : List ℤ).length ∧
    (∃ m, buildPipe 2 [1, 1] [0] 1 "never" = .error (.indexError m)) :=
  ⟨by decide, by decide, by decide,
   (build_validation 2 [1, 1] [0] 1 "never").2.1 (by decide) (by decide) (by decide)⟩

/-- Claim C9 (modeled from the spec, the pipeline source not being
under src): a pipeline built over an empty model returns a bare tensor
unchanged and a single-element tensor tuple unchanged, and fails with a
type error on a non-tensor input, bare or inside a tuple. -/
theorem empty_pipe_identity :
    (∀ v : ℤ, emptyPipeForward (.single (.tensor v)) = .ok (.single (.tensor v)))
  ∧ (∀ v : ℤ, emptyPipeForward (.tuple [.tensor v]) = .ok (.tuple [.tensor v]))
  ∧ (∀ s : String, ∃ m, emptyPipeForward (.single (.other s)) = .error (.typeError m))
  ∧ (∀ s : String, ∃ m, emptyPipeForward (.tuple [.other s]) = .error (.typeError m)) :=
  ⟨fun _ => rfl, fun _ => rfl, fun _ => ⟨_, rfl⟩, fun _ => ⟨_, rfl⟩⟩

end Pipe

end FairscaleSpec
